import Mathlib

/-!
Shallow embedding of `src/librustc/hir/check_attr.rs`: the attribute
applicability and consistency checker for `#[inline]` and `#[repr]`.
Diagnostics are modelled as explicit records, spans as natural numbers,
and the visitor traversal as a recursive function over the item tree.
-/

namespace CheckAttr

/-- Severity of a diagnostic: `struct_span_err!` emits errors,
`span_warn!` emits warnings. -/
inductive Severity where
  | error
  | warning
deriving DecidableEq, Repr

/-- A diagnostic record: severity, error code, primary message, primary
span, and an optional secondary (span, label) pair. -/
structure Diagnostic where
  severity : Severity
  code : String
  message : String
  span : Nat
  label : Option (Nat × String)
deriving DecidableEq, Repr

def Diagnostic.isError (d : Diagnostic) : Bool :=
  match d.severity with
  | .error => true
  | .warning => false

def Diagnostic.isWarning (d : Diagnostic) : Bool :=
  match d.severity with
  | .warning => true
  | .error => false

/-- `ast::VariantData`: unit variants carry no data; tuple and struct
variants carry a payload. -/
inductive VariantData where
  | Unit
  | Tuple
  | StructData
deriving DecidableEq, Repr

/-- An enum variant, recording only what `is_c_like_enum` inspects:
its `VariantData`. -/
structure Variant where
  data : VariantData
deriving DecidableEq, Repr

/-- The item kinds `Target::from_item` distinguishes; an enum item
carries its variants. -/
inductive ItemKind where
  | Fn
  | Struct
  | Union
  | Enum (variants : List Variant)
  | Other
deriving DecidableEq, Repr

/-- A meta item word inside a `#[repr(...)]` list: `word.name()` may be
absent. -/
structure Word where
  name : Option String
deriving DecidableEq, Repr

/-- An `ast::Attribute`: `attr.name()` may be absent,
`attr.meta_item_list()` may yield no list at all, and the attribute has
a span. -/
structure Attr where
  name : Option String
  metaItemList : Option (List Word)
  span : Nat
deriving DecidableEq, Repr

/-- An `ast::Item`: its kind, its attached attributes in source order,
its span, and the items nested inside it (those `visit::walk_item`
descends into). -/
inductive Item where
  | mk (node : ItemKind) (attrs : List Attr) (span : Nat) (items : List Item)

def Item.node : Item → ItemKind
  | .mk n _ _ _ => n

def Item.attrs : Item → List Attr
  | .mk _ a _ _ => a

def Item.span : Item → Nat
  | .mk _ _ s _ => s

def Item.items : Item → List Item
  | .mk _ _ _ is => is

/-- `enum Target`. -/
inductive Target where
  | Fn
  | Struct
  | Union
  | Enum
  | Other
deriving DecidableEq, Repr

/-- `Target::from_item`. -/
def Target.from_item (item : Item) : Target :=
  match item.node with
  | .Fn => .Fn
  | .Struct => .Struct
  | .Union => .Union
  | .Enum _ => .Enum
  | .Other => .Other

/-- `is_c_like_enum`: true iff the item is an enum and the loop over its
variants finds no non-unit variant. -/
def is_c_like_enum (item : Item) : Bool :=
  match item.node with
  | .Enum variants =>
      variants.all (fun variant =>
        match variant.data with
        | .Unit => true
        | _ => false)
  | _ => false

/-- `check_inline`: error E0518 unless the target is a function. -/
def check_inline (attr : Attr) (item : Item) (target : Target) : List Diagnostic :=
  if target ≠ Target.Fn then
    [{ severity := .error, code := "E0518",
       message := "attribute should be applied to function",
       span := attr.span,
       label := some (item.span, "not a function") }]
  else []

/-- The integer representation hint words of `check_repr`. -/
def intWidthNames : List String :=
  ["i8", "u8", "i16", "u16", "i32", "u32", "i64", "u64", "isize", "usize"]

def isIntWidthWord (s : String) : Bool :=
  intWidthNames.contains s

/-- The mutable tally of `check_repr`: `int_reprs`, `is_c`, `is_simd`. -/
structure ReprAccum where
  int_reprs : Nat
  is_c : Bool
  is_simd : Bool
deriving DecidableEq, Repr

/-- The flag updates performed by one iteration of the word loop in
`check_repr`: `"C"` sets `is_c`, `"simd"` sets `is_simd`, an integer
width word increments `int_reprs`; `"packed"`, `"align"`, unrecognized
words and nameless words leave the tally unchanged. -/
def reprWordAccum (acc : ReprAccum) (word : Word) : ReprAccum :=
  match word.name with
  | none => acc
  | some name =>
      if name = "C" then { acc with is_c := true }
      else if name = "simd" then { acc with is_simd := true }
      else if isIntWidthWord name then { acc with int_reprs := acc.int_reprs + 1 }
      else acc

/-- An E0517 applicability error as `check_repr` emits it: primary
message at the attribute span, label `"not " ++ label` at the item
span. -/
def mkE0517 (attrSpan itemSpan : Nat) (message label : String) : Diagnostic :=
  { severity := .error, code := "E0517", message := message,
    span := attrSpan, label := some (itemSpan, "not " ++ label) }

/-- The diagnostics emitted by one iteration of the word loop in
`check_repr`: each recognized word is checked against its legal target
kinds and yields one E0517 error when illegal; legal, unrecognized and
nameless words yield nothing. -/
def reprWordDiags (target : Target) (attrSpan itemSpan : Nat) (word : Word) :
    List Diagnostic :=
  match word.name with
  | none => []
  | some name =>
      if name = "C" then
        if target ≠ Target.Struct ∧ target ≠ Target.Union ∧ target ≠ Target.Enum then
          [mkE0517 attrSpan itemSpan
            "attribute should be applied to struct, enum or union"
            "a struct, enum or union"]
        else []
      else if name = "packed" then
        if target ≠ Target.Struct ∧ target ≠ Target.Union then
          [mkE0517 attrSpan itemSpan
            "attribute should be applied to struct or union"
            "a struct or union"]
        else []
      else if name = "simd" then
        if target ≠ Target.Struct then
          [mkE0517 attrSpan itemSpan
            "attribute should be applied to struct"
            "a struct"]
        else []
      else if name = "align" then
        if target ≠ Target.Struct ∧ target ≠ Target.Union then
          [mkE0517 attrSpan itemSpan
            "attribute should be applied to struct or union"
            "a struct or union"]
        else []
      else if isIntWidthWord name then
        if target ≠ Target.Enum then
          [mkE0517 attrSpan itemSpan
            "attribute should be applied to enum"
            "an enum"]
        else []
      else []

/-- The word loop of `check_repr`: threads the tally through all words
and concatenates the per-word diagnostics in source order. -/
def reprWords (target : Target) (attrSpan itemSpan : Nat) (acc : ReprAccum) :
    List Word → ReprAccum × List Diagnostic
  | [] => (acc, [])
  | w :: ws =>
      let rest := reprWords target attrSpan itemSpan (reprWordAccum acc w) ws
      (rest.1, reprWordDiags target attrSpan itemSpan w ++ rest.2)

/-- The E0566 consistency warning of `check_repr`. -/
def conflictWarning (attrSpan : Nat) : Diagnostic :=
  { severity := .warning, code := "E0566",
    message := "conflicting representation hints",
    span := attrSpan, label := none }

/-- `check_repr`: returns immediately when `meta_item_list()` yields no
list; otherwise runs the word loop starting from a zeroed tally and then
emits the E0566 warning when the tally is conflicting. -/
def check_repr (attr : Attr) (item : Item) (target : Target) : List Diagnostic :=
  match attr.metaItemList with
  | none => []
  | some words =>
      let r := reprWords target attr.span item.span ⟨0, false, false⟩ words
      r.2 ++
        (if 1 < r.1.int_reprs ∨ (r.1.is_simd ∧ r.1.is_c)
            ∨ (r.1.int_reprs = 1 ∧ r.1.is_c ∧ is_c_like_enum item) then
          [conflictWarning attr.span]
        else [])

/-- `check_attribute`: dispatch on the attribute name; names other than
`"inline"` and `"repr"`, and nameless attributes, are no-ops. -/
def check_attribute (attr : Attr) (item : Item) (target : Target) : List Diagnostic :=
  match attr.name with
  | none => []
  | some name =>
      if name = "inline" then check_inline attr item target
      else if name = "repr" then check_repr attr item target
      else []

mutual

/-- `CheckAttrVisitor::visit_item`: classify the item, check each of its
attributes in order, then walk the nested items. -/
def visit_item : Item → List Diagnostic
  | .mk node attrs span items =>
      let item := Item.mk node attrs span items
      let target := Target.from_item item
      attrs.flatMap (fun attr => check_attribute attr item target) ++ visit_items items

/-- `visit::walk_item` descending over a list of sibling items in source
order. -/
def visit_items : List Item → List Diagnostic
  | [] => []
  | i :: is => visit_item i ++ visit_items is

end

/-- A crate: the list of top-level items. -/
structure Crate where
  items : List Item

/-- `check_crate`: walk the whole crate with the visitor. -/
def check_crate (krate : Crate) : List Diagnostic :=
  visit_items krate.items

/-! ### Specification-side observables

Definitions below restate, in direct terms over an annotation's word
list, the quantities the spec talks about: how many integer width
words occur, whether `C` or `simd` occurs, and the conflict condition.
They are compared against the tally threaded through the word loop. -/

/-- Whether a word's name is the given string. -/
def wordNameIs (w : Word) (s : String) : Bool :=
  w.name == some s

/-- Whether a word is one of the integer width hints. -/
def wordIsIntWidth (w : Word) : Bool :=
  match w.name with
  | some n => isIntWidthWord n
  | none => false

/-- The number of integer width words in a word list. -/
def intWordCount (ws : List Word) : Nat :=
  ws.countP wordIsIntWidth

/-- Whether the word `C` occurs in a word list. -/
def sawC (ws : List Word) : Bool :=
  ws.any (fun w => wordNameIs w "C")

/-- Whether the word `simd` occurs in a word list. -/
def sawSimd (ws : List Word) : Bool :=
  ws.any (fun w => wordNameIs w "simd")

/-- The spec's conflict condition over an occurrence's word list: more
than one integer width hint, or `simd` together with `C`, or exactly
one integer width hint together with `C` on a C-like enum. -/
def conflictingHints (ws : List Word) (item : Item) : Bool :=
  decide (1 < intWordCount ws) || (sawSimd ws && sawC ws)
    || (decide (intWordCount ws = 1) && sawC ws && is_c_like_enum item)

/-- The spec's per-word legality table: each recognized representation
hint word maps to its set of legal targets, its error message and its
label; unrecognized words map to nothing. -/
def specLegalTargets (name : String) : Option (List Target × String × String) :=
  if name = "C" then
    some ([.Struct, .Union, .Enum],
      "attribute should be applied to struct, enum or union", "a struct, enum or union")
  else if name = "packed" then
    some ([.Struct, .Union],
      "attribute should be applied to struct or union", "a struct or union")
  else if name = "simd" then
    some ([.Struct], "attribute should be applied to struct", "a struct")
  else if name = "align" then
    some ([.Struct, .Union],
      "attribute should be applied to struct or union", "a struct or union")
  else if isIntWidthWord name then
    some ([.Enum], "attribute should be applied to enum", "an enum")
  else none

/-- The diagnostics one word should produce according to the spec's
table: one E0517 error when the declaration's target kind is outside
the word's legal set, nothing otherwise. -/
def specWordDiags (target : Target) (attrSpan itemSpan : Nat) (word : Word) :
    List Diagnostic :=
  match word.name with
  | none => []
  | some name =>
      match specLegalTargets name with
      | none => []
      | some (targets, message, label) =>
          if target ∈ targets then [] else [mkE0517 attrSpan itemSpan message label]

/-- Whether a string is one of the recognized representation hint
words. -/
def recognizedReprWord (s : String) : Bool :=
  s == "C" || s == "packed" || s == "simd" || s == "align" || isIntWidthWord s

/-- The diagnostics one declaration contributes: its attributes checked
in order against its target kind. -/
def itemDiags (i : Item) : List Diagnostic :=
  i.attrs.flatMap (fun attr => check_attribute attr i (Target.from_item i))

mutual

/-- The declarations reachable from an item in depth-first order: the
item itself, then the declarations of its nested items. -/
def itemDecls : Item → List Item
  | .mk node attrs span items => Item.mk node attrs span items :: declsOf items

/-- The declarations reachable from a sibling list, in source order. -/
def declsOf : List Item → List Item
  | [] => []
  | i :: is => itemDecls i ++ declsOf is

end

mutual

/-- The number of declaration nodes in an item's subtree. -/
def itemCount : Item → Nat
  | .mk _ _ _ items => 1 + countOf items

/-- The number of declaration nodes under a sibling list. -/
def countOf : List Item → Nat
  | [] => 0
  | i :: is => itemCount i + countOf is

end

/-- The declarations of a crate in depth-first source order. -/
def crateDecls (k : Crate) : List Item :=
  declsOf k.items

/-! ### Concrete instances used by witnesses and examples -/

/-- A bare struct declaration with span 4. -/
def plainStruct : Item := .mk .Struct [] 4 []

/-- `#[repr(u8, u16)]` with span 5. -/
def u8u16Attr : Attr := ⟨some "repr", some [⟨some "u8"⟩, ⟨some "u16"⟩], 5⟩

/-- `#[repr(C)]` with span 1. -/
def reprCAttr : Attr := ⟨some "repr", some [⟨some "C"⟩], 1⟩

/-- `#[repr(u8)]` with span 2. -/
def reprU8Attr : Attr := ⟨some "repr", some [⟨some "u8"⟩], 2⟩

/-- `#[repr(C, u8)]` with span 3. -/
def reprCU8Attr : Attr := ⟨some "repr", some [⟨some "C"⟩, ⟨some "u8"⟩], 3⟩

/-- A two-variant C-like enum carrying `#[repr(C)]` and `#[repr(u8)]`
as two separate annotations. -/
def unitEnumSeparate : Item :=
  .mk (.Enum [⟨.Unit⟩, ⟨.Unit⟩]) [reprCAttr, reprU8Attr] 0 []

/-- The same C-like enum carrying the single annotation
`#[repr(C, u8)]`. -/
def unitEnumCombined : Item :=
  .mk (.Enum [⟨.Unit⟩, ⟨.Unit⟩]) [reprCU8Attr] 0 []

/-- A one-variant C-like enum with span 9 and no attributes. -/
def unitEnumPlain : Item := .mk (.Enum [⟨.Unit⟩]) [] 9 []

/-! ### Helper lemmas -/

/-- One step of the word loop updates the tally exactly as the
spec-side observables predict, for any word and any accumulator. -/
lemma reprWordAccum_spec (acc : ReprAccum) (w : Word) :
    reprWordAccum acc w =
      ⟨acc.int_reprs + (if wordIsIntWidth w then 1 else 0),
       acc.is_c || wordNameIs w "C",
       acc.is_simd || wordNameIs w "simd"⟩ := by
  rcases w with ⟨name⟩
  cases name with
  | none => simp [reprWordAccum, wordIsIntWidth, wordNameIs]
  | some s =>
      simp only [reprWordAccum, wordIsIntWidth, wordNameIs]
      by_cases hC : s = "C"
      · subst hC
        simp [isIntWidthWord, intWidthNames]
      · by_cases hS : s = "simd"
        · subst hS
          simp [isIntWidthWord, intWidthNames]
        · have e1 : (s == "C") = false := beq_eq_false_iff_ne.mpr hC
          have e2 : (s == "simd") = false := beq_eq_false_iff_ne.mpr hS
          by_cases hI : isIntWidthWord s
          · simp [hC, hS, hI, e1, e2]
          · simp [hC, hS, hI, e1, e2]

/-- The tally produced by the whole word loop, for any starting
accumulator: the target kind and the spans play no role. -/
lemma reprWords_fst (target : Target) (a b : Nat) (acc : ReprAccum) (ws : List Word) :
    (reprWords target a b acc ws).1 =
      ⟨acc.int_reprs + intWordCount ws,
       acc.is_c || sawC ws,
       acc.is_simd || sawSimd ws⟩ := by
  induction ws generalizing acc with
  | nil => simp [reprWords, intWordCount, sawC, sawSimd]
  | cons w ws ih =>
      simp only [reprWords]
      rw [ih, reprWordAccum_spec]
      simp [intWordCount, sawC, sawSimd, List.countP_cons]
      constructor
      · split <;> omega
      · constructor <;> rw [Bool.or_assoc]

/-- The diagnostics produced by the word loop are the per-word
diagnostics, concatenated in word order, independent of the
accumulator. -/
lemma reprWords_snd (target : Target) (a b : Nat) (acc : ReprAccum) (ws : List Word) :
    (reprWords target a b acc ws).2 = ws.flatMap (reprWordDiags target a b) := by
  induction ws generalizing acc with
  | nil => simp [reprWords]
  | cons w ws ih => simp [reprWords, ih]

/-- Every diagnostic produced for a single word is an error. -/
lemma reprWordDiags_error (target : Target) (a b : Nat) (w : Word) (d : Diagnostic)
    (hd : d ∈ reprWordDiags target a b w) : d.severity = Severity.error := by
  rcases w with ⟨name⟩
  cases name with
  | none => simp [reprWordDiags] at hd
  | some s =>
      simp only [reprWordDiags] at hd
      split_ifs at hd <;> simp_all [mkE0517]

/-- The per-word diagnostics contain no warning. -/
lemma filter_warning_flatMap (target : Target) (a b : Nat) (ws : List Word) :
    (ws.flatMap (reprWordDiags target a b)).filter Diagnostic.isWarning = [] := by
  rw [List.filter_eq_nil_iff]
  intro d hd
  rw [List.mem_flatMap] at hd
  obtain ⟨w, _, hdw⟩ := hd
  have := reprWordDiags_error target a b w d hdw
  simp [Diagnostic.isWarning, this]

/-- The per-word diagnostics are all errors. -/
lemma filter_error_flatMap (target : Target) (a b : Nat) (ws : List Word) :
    (ws.flatMap (reprWordDiags target a b)).filter Diagnostic.isError
      = ws.flatMap (reprWordDiags target a b) := by
  rw [List.filter_eq_self]
  intro d hd
  rw [List.mem_flatMap] at hd
  obtain ⟨w, _, hdw⟩ := hd
  have := reprWordDiags_error target a b w d hdw
  simp [Diagnostic.isError, this]

/-- The code's per-word check agrees with the spec's per-word table. -/
lemma reprWordDiags_eq_spec (target : Target) (a b : Nat) (w : Word) :
    reprWordDiags target a b w = specWordDiags target a b w := by
  rcases w with ⟨name⟩
  cases name with
  | none => rfl
  | some s =>
      simp only [reprWordDiags, specWordDiags, specLegalTargets]
      by_cases h1 : s = "C"
      · simp only [h1, if_pos rfl]
        cases target <;> simp
      · rw [if_neg h1, if_neg h1]
        by_cases h2 : s = "packed"
        · simp only [h2, if_pos rfl]
          cases target <;> simp
        · rw [if_neg h2, if_neg h2]
          by_cases h3 : s = "simd"
          · simp only [h3, if_pos rfl]
            cases target <;> simp
          · rw [if_neg h3, if_neg h3]
            by_cases h4 : s = "align"
            · simp only [h4, if_pos rfl]
              cases target <;> simp
            · rw [if_neg h4, if_neg h4]
              by_cases h5 : isIntWidthWord s
              · simp only [if_pos h5]
                cases target <;> simp
              · rw [if_neg h5, if_neg h5]

mutual

/-- The visitor over an item equals the depth-first declaration list's
per-declaration diagnostics, concatenated. -/
theorem visit_item_eq_decls (i : Item) :
    visit_item i = (itemDecls i).flatMap itemDiags := by
  cases i with
  | mk node attrs span items =>
      simp only [visit_item, itemDecls, List.flatMap_cons]
      rw [visit_items_eq_decls items]
      rfl

theorem visit_items_eq_decls (is : List Item) :
    visit_items is = (declsOf is).flatMap itemDiags := by
  cases is with
  | nil => rfl
  | cons i is =>
      simp only [visit_items, declsOf, List.flatMap_append]
      rw [visit_item_eq_decls i, visit_items_eq_decls is]

end

mutual

/-- The depth-first declaration list has one entry per declaration
node of the subtree. -/
theorem itemDecls_length (i : Item) : (itemDecls i).length = itemCount i := by
  cases i with
  | mk node attrs span items =>
      simp only [itemDecls, itemCount, List.length_cons]
      rw [declsOf_length items]
      omega

theorem declsOf_length (is : List Item) : (declsOf is).length = countOf is := by
  cases is with
  | nil => rfl
  | cons i is =>
      simp only [declsOf, countOf, List.length_append]
      rw [itemDecls_length i, declsOf_length is]

end

/-- Walking a sibling list concatenates the per-item visits in
order. -/
lemma visit_items_flatMap (is : List Item) :
    visit_items is = is.flatMap visit_item := by
  induction is with
  | nil => rfl
  | cons i is ih => simp [visit_items, ih]

/-! ### Claim theorems -/

/-- Claim C1: for every `repr` annotation occurrence with a parsed word
list, after all words are processed exactly one warning with message
"conflicting representation hints" is emitted iff more than one integer
width word was seen, or both `simd` and `C` were seen, or exactly one
integer width word was seen together with `C` on a declaration that is
a C-like enum; otherwise none, and never more than one per
occurrence. -/
theorem repr_conflict_warning_iff (attr : Attr) (item : Item) (target : Target)
    (ws : List Word) (h : attr.metaItemList = some ws) :
    (check_repr attr item target).filter Diagnostic.isWarning
      = if conflictingHints ws item then [conflictWarning attr.span] else [] := by
  simp only [check_repr, h]
  rw [List.filter_append, reprWords_snd, filter_warning_flatMap, reprWords_fst]
  simp only [List.nil_append, Nat.zero_add, Bool.false_or]
  have hc : conflictingHints ws item = true ↔
      (1 < intWordCount ws ∨ (sawSimd ws = true ∧ sawC ws = true)
        ∨ (intWordCount ws = 1 ∧ sawC ws = true ∧ is_c_like_enum item = true)) := by
    simp only [conflictingHints, Bool.or_eq_true, Bool.and_eq_true, decide_eq_true_eq]
    tauto
  by_cases hP : (1 < intWordCount ws ∨ (sawSimd ws = true ∧ sawC ws = true)
      ∨ (intWordCount ws = 1 ∧ sawC ws = true ∧ is_c_like_enum item = true))
  · rw [if_pos hP, if_pos (hc.mpr hP)]
    simp [conflictWarning, Diagnostic.isWarning]
  · rw [if_neg hP, if_neg]
    · rfl
    · intro hb
      exact hP (hc.mp hb)

/-- Witness for C1: `#[repr(u8, u16)]` on a plain struct, where the
conflict condition holds and the single warning is produced. -/
theorem repr_conflict_warning_iff_witness :
    (check_repr u8u16Attr plainStruct Target.Struct).filter Diagnostic.isWarning
      = if conflictingHints [⟨some "u8"⟩, ⟨some "u16"⟩] plainStruct then
          [conflictWarning u8u16Attr.span]
        else [] :=
  repr_conflict_warning_iff u8u16Attr plainStruct Target.Struct
    [⟨some "u8"⟩, ⟨some "u16"⟩] rfl

/-- Claim C2: each word of a `repr` annotation yields exactly one
applicability error when its required target set excludes the
declaration's target kind, with the message and label of the per-word
table, and no diagnostic when its target is legal: the code's per-word
check coincides with the spec's table, and the error diagnostics of a
`repr` occurrence are exactly the per-word table diagnostics in word
order. -/
theorem repr_word_applicability :
    (∀ (target : Target) (a b : Nat) (w : Word),
        reprWordDiags target a b w = specWordDiags target a b w)
  ∧ (∀ (attr : Attr) (item : Item) (target : Target) (ws : List Word),
        attr.metaItemList = some ws →
        (check_repr attr item target).filter Diagnostic.isError
          = ws.flatMap (specWordDiags target attr.span item.span)) := by
  constructor
  · exact reprWordDiags_eq_spec
  · intro attr item target ws h
    simp only [check_repr, h]
    rw [List.filter_append, reprWords_snd, filter_error_flatMap]
    have hwarn : ∀ c : Prop, ∀ hc : Decidable c,
        (if c then [conflictWarning attr.span] else []).filter Diagnostic.isError = [] := by
      intro c hc
      split <;> rfl
    rw [hwarn, List.append_nil]
    have he : reprWordDiags target attr.span item.span
        = specWordDiags target attr.span item.span :=
      funext (reprWordDiags_eq_spec target attr.span item.span)
    rw [he]

/-- Witness for C2: `#[repr(packed)]` on a C-like enum produces exactly
the table's single error. -/
theorem repr_word_applicability_witness :
    (check_repr ⟨some "repr", some [⟨some "packed"⟩], 8⟩ unitEnumPlain Target.Enum).filter
        Diagnostic.isError
      = [Word.mk (some "packed")].flatMap
          (specWordDiags Target.Enum
            (Attr.mk (some "repr") (some [⟨some "packed"⟩]) 8).span unitEnumPlain.span) :=
  repr_word_applicability.2 ⟨some "repr", some [⟨some "packed"⟩], 8⟩ unitEnumPlain
    Target.Enum [⟨some "packed"⟩] rfl

/-- Claim C3: an `inline` annotation on a non-function target emits
exactly one error with primary message "attribute should be applied to
function" and secondary label "not a function" on the declaration's
span; on a function target it emits nothing. -/
theorem inline_applicability (attr : Attr) (item : Item) (target : Target)
    (h : attr.name = some "inline") :
    check_attribute attr item target =
      if target = Target.Fn then []
      else
        [{ severity := .error, code := "E0518",
           message := "attribute should be applied to function",
           span := attr.span, label := some (item.span, "not a function") }] := by
  simp only [check_attribute, h, if_pos rfl]
  by_cases ht : target = Target.Fn
  · simp [check_inline, ht]
  · simp [check_inline, ht]

/-- Witness for C3: `#[inline]` on a plain struct produces the single
error. -/
theorem inline_applicability_witness :
    check_attribute ⟨some "inline", none, 7⟩ plainStruct Target.Struct =
      if Target.Struct = Target.Fn then []
      else
        [{ severity := .error, code := "E0518",
           message := "attribute should be applied to function",
           span := (Attr.mk (some "inline") none 7).span,
           label := some (plainStruct.span, "not a function") }] :=
  inline_applicability ⟨some "inline", none, 7⟩ plainStruct Target.Struct rfl

/-- Claim C4: `is_c_like_enum` returns true iff the declaration is an
enumeration all of whose variants are unit variants; it is false on
every non-enum declaration and on every enum with a non-unit variant,
and being a Lean function of the item it has no side effects. -/
theorem is_c_like_enum_iff (item : Item) :
    is_c_like_enum item = true ↔
      ∃ variants, item.node = ItemKind.Enum variants ∧
        ∀ v ∈ variants, v.data = VariantData.Unit := by
  rcases item with ⟨node, attrs, span, items⟩
  cases node with
  | Enum vs =>
      simp only [is_c_like_enum, Item.node, List.all_eq_true]
      constructor
      · intro hall
        refine ⟨vs, rfl, fun v hv => ?_⟩
        have := hall v hv
        cases hdata : v.data <;> simp_all
      · rintro ⟨vs2, heq, hunit⟩
        cases heq
        intro v hv
        simp [hunit v hv]
  | Fn => simp [is_c_like_enum, Item.node]
  | Struct => simp [is_c_like_enum, Item.node]
  | Union => simp [is_c_like_enum, Item.node]
  | Other => simp [is_c_like_enum, Item.node]

/-- Witness for C4: the predicate holds on a one-variant unit enum. -/
theorem is_c_like_enum_iff_witness :
    is_c_like_enum unitEnumPlain = true :=
  (is_c_like_enum_iff unitEnumPlain).mpr ⟨[⟨.Unit⟩], rfl, by decide⟩

/-- Claim C5: the tally `(int_reprs, is_c, is_simd)` computed by the
word loop depends only on the word list, never on the target kind or
the legality outcome, and one single occurrence can yield both
applicability errors and the consistency warning: `#[repr(u8, u16)]`
on a struct yields two errors and one warning. -/
theorem repr_tally_independent_of_legality :
    (∀ (target : Target) (a b : Nat) (ws : List Word),
        (reprWords target a b ⟨0, false, false⟩ ws).1 =
          ⟨intWordCount ws, sawC ws, sawSimd ws⟩)
  ∧ ((check_repr u8u16Attr plainStruct Target.Struct).countP Diagnostic.isError = 2
      ∧ (check_repr u8u16Attr plainStruct Target.Struct).countP Diagnostic.isWarning = 1) := by
  refine ⟨?_, by decide⟩
  intro target a b ws
  rw [reprWords_fst]
  simp

/-- Claim C6: the tally is scoped to one annotation occurrence: an
item's annotations are checked independently one after another, and on
a C-like enum the two separate annotations `#[repr(C)]` and
`#[repr(u8)]` produce zero consistency warnings while the single
annotation `#[repr(C, u8)]` produces one. -/
theorem repr_tally_per_occurrence :
    (∀ (node : ItemKind) (span : Nat) (a1 a2 : Attr),
        visit_item (.mk node [a1, a2] span []) =
          check_attribute a1 (.mk node [a1, a2] span [])
              (Target.from_item (.mk node [a1, a2] span []))
            ++ check_attribute a2 (.mk node [a1, a2] span [])
              (Target.from_item (.mk node [a1, a2] span [])))
  ∧ (visit_item unitEnumSeparate).countP Diagnostic.isWarning = 0
  ∧ (visit_item unitEnumCombined).countP Diagnostic.isWarning = 1 := by
  refine ⟨?_, by decide, by decide⟩
  intro node span a1 a2
  simp [visit_item, visit_items]

/-- Claim C7: an annotation whose name is neither `inline` nor `repr`,
or whose name is absent, produces no diagnostic, and a `repr` word
whose name is not a recognized representation hint word produces no
diagnostic and leaves the tally unchanged. -/
theorem unknown_ignored :
    (∀ (attr : Attr) (item : Item) (target : Target),
        attr.name ≠ some "inline" → attr.name ≠ some "repr" →
        check_attribute attr item target = [])
  ∧ (∀ (target : Target) (a b : Nat) (acc : ReprAccum) (w : Word),
        (∀ s, w.name = some s → recognizedReprWord s = false) →
        reprWordAccum acc w = acc ∧ reprWordDiags target a b w = []) := by
  constructor
  · intro attr item target h1 h2
    cases hn : attr.name with
    | none => simp [check_attribute, hn]
    | some s =>
        have hs1 : s ≠ "inline" := fun e => h1 (by rw [hn, e])
        have hs2 : s ≠ "repr" := fun e => h2 (by rw [hn, e])
        simp [check_attribute, hn, hs1, hs2]
  · intro target a b acc w hw
    rcases w with ⟨name⟩
    cases name with
    | none => exact ⟨rfl, rfl⟩
    | some s =>
        have hrec := hw s rfl
        simp only [recognizedReprWord, Bool.or_eq_false_iff, beq_eq_false_iff_ne] at hrec
        obtain ⟨⟨⟨⟨e1, e2⟩, e3⟩, e4⟩, e5⟩ := hrec
        constructor
        · simp [reprWordAccum, e1, e3, e5]
        · simp [reprWordDiags, e1, e2, e3, e4, e5]

/-- Witness for C7: the annotation `banana` and the `repr` word
`weird` are ignored. -/
theorem unknown_ignored_witness :
    check_attribute ⟨some "banana", none, 1⟩ plainStruct Target.Struct = []
  ∧ (reprWordAccum ⟨0, false, false⟩ ⟨some "weird"⟩ = ⟨0, false, false⟩
      ∧ reprWordDiags Target.Struct 1 2 ⟨some "weird"⟩ = []) :=
  ⟨unknown_ignored.1 ⟨some "banana", none, 1⟩ plainStruct Target.Struct
      (by decide) (by decide),
   unknown_ignored.2 Target.Struct 1 2 ⟨0, false, false⟩ ⟨some "weird"⟩
      (fun s hs => by
        have h : "weird" = s := by
          simpa [Word.name] using hs
        rw [← h]
        decide)⟩

/-- Claim C8: the checker is deterministic — two runs over the same
tree produce the same diagnostic list — and within one run the
diagnostics of an item are its annotations' diagnostics in written
order followed by the nested items' diagnostics in source order. -/
theorem checker_deterministic_ordered :
    (∀ k : Crate, check_crate k = check_crate k)
  ∧ (∀ (node : ItemKind) (attrs : List Attr) (span : Nat) (items : List Item),
        visit_item (.mk node attrs span items) =
          attrs.flatMap (fun attr =>
            check_attribute attr (.mk node attrs span items)
              (Target.from_item (.mk node attrs span items)))
          ++ items.flatMap visit_item) := by
  refine ⟨fun k => rfl, ?_⟩
  intro node attrs span items
  simp only [visit_item]
  rw [visit_items_flatMap]

/-- Claim C9: the traversal reaches every declaration of the tree in
depth-first source order, exactly once each — the emitted diagnostics
are the concatenation over the depth-first declaration list of each
declaration's per-annotation diagnostics, and that list has exactly
one entry per declaration node — and, being a total function, the
traversal always completes. -/
theorem traversal_complete :
    (∀ k : Crate, check_crate k = (crateDecls k).flatMap itemDiags)
  ∧ (∀ i : Item, (itemDecls i).length = itemCount i) := by
  refine ⟨?_, itemDecls_length⟩
  intro k
  simp only [check_crate, crateDecls]
  exact visit_items_eq_decls k.items

/-- Claim C10: a `repr` annotation that carries no parseable
argument-word list produces no diagnostic at all: `check_repr` returns
immediately. -/
theorem repr_no_list_no_diags (attr : Attr) (item : Item) (target : Target)
    (h : attr.metaItemList = none) :
    check_repr attr item target = [] := by
  simp [check_repr, h]

/-- Witness for C10: `#[repr]` without a word list on a struct. -/
theorem repr_no_list_no_diags_witness :
    check_repr ⟨some "repr", none, 6⟩ plainStruct Target.Struct = [] :=
  repr_no_list_no_diags ⟨some "repr", none, 6⟩ plainStruct Target.Struct rfl

end CheckAttr
